import Mathlib

/-!
Verification development for the Houston nonprofit dashboard / RAG repository.

The repository under review consists of a React presentation layer (chat
page, nonprofit list, nonprofit detail, dashboard) and a README describing a
backend that loads a fixed dataset of nonprofit records, classifies a chat
query as an impact/size query or a semantic query, ranks the records
(revenue sort or TF-IDF cosine similarity), and forwards a prompt to an
external generation service.  The presentation layer is embedded directly
from its TypeScript source.  The backend components (record store, query
ranker, chat orchestrator) are not part of the provided sources, so they are
modelled from the specification; every such definition carries a doc
comment starting with `Modelled from the spec:`.

Text is modelled as `String` whose character data is processed with
list-level functions (lowercasing, substring search, tokenisation,
lexicographic comparison) so that all definitions evaluate by kernel
reduction.  Relevance scores are modelled as exact rationals: the semantic
score attached to a record is the square of the TF-IDF cosine similarity,
which is an exactly computable rational and is order-isomorphic to the
cosine itself on the nonnegative values produced by TF-IDF weighting.
-/

/-- Lower-case the character data of a string. -/
def lower (s : String) : List Char := s.data.map Char.toLower

/-- Whether the first list is an initial segment of the second. -/
def beginsWith : List Char → List Char → Bool
  | [], _ => true
  | _ :: _, [] => false
  | p :: ps, c :: cs => p == c && beginsWith ps cs

/-- Whether `pat` occurs as a contiguous substring of the second list. -/
def hasSub (pat : List Char) : List Char → Bool
  | [] => pat.isEmpty
  | c :: cs => beginsWith pat (c :: cs) || hasSub pat cs

/-- Lexicographic less-or-equal on character lists (models string ordering
used for deterministic name tie-breaks). -/
def lexLe : List Char → List Char → Bool
  | [], _ => true
  | _ :: _, [] => false
  | a :: as, b :: bs => if a = b then lexLe as bs else decide (a < b)

/-- Case-fold alphanumeric characters and turn every other character into a
space, the normalisation used before token splitting. -/
def normalizeChar (c : Char) : Char := if c.isAlphanum then c.toLower else ' '

/-- Split a character list into maximal space-free words; `acc` holds the
current word reversed. -/
def splitWordsAux : List Char → List Char → List (List Char)
  | acc, [] => if acc.isEmpty then [] else [acc.reverse]
  | acc, c :: cs =>
    if c = ' ' then
      if acc.isEmpty then splitWordsAux [] cs else acc.reverse :: splitWordsAux [] cs
    else splitWordsAux (c :: acc) cs

/-- Modelled from the spec: the tokeniser of the semantic ranking mode
(vocabulary is all distinct normalized tokens, case-folded, punctuation
stripped).  The tokeniser itself is not in the provided sources. -/
def tokenize (s : String) : List (List Char) :=
  splitWordsAux [] (s.data.map normalizeChar)

/-- Insert `a` into `l` in front of the first element `b` with `le a b`. -/
def insertBy (le : α → α → Bool) (a : α) : List α → List α
  | [] => [a]
  | b :: l => if le a b then a :: b :: l else b :: insertBy le a l

/-- Insertion sort by a boolean comparison; structurally recursive so that
it evaluates by kernel reduction on concrete inputs. -/
def sortByLe (le : α → α → Bool) : List α → List α
  | [] => []
  | a :: l => insertBy le a (sortByLe le l)

/-- Modelled from the spec: the `NonprofitRecord` data model of the record
store (the backend store itself is not in the provided sources; the field
shapes follow the spec and the TypeScript interfaces of the detail page). -/
structure NonprofitRecord where
  ein : String
  name : String
  nteeCode : String
  nteeDescription : String
  city : String
  state : String
  streetAddress : Option String
  zipCode : Option String
  totalRevenue : ℕ
  totalExpenses : ℕ
  netAssets : ℕ
  missionDescription : Option String
  programDescription : Option String
  activitiesDescription : Option String
  website : Option String
  phone : Option String
deriving DecidableEq, Repr

/-- Modelled from the spec: the error taxonomy of section 7. -/
inductive RagError where
  | ValidationError
  | NotFoundError
  | InvalidArgumentError
  | UpstreamError
deriving DecidableEq, Repr

/-- Modelled from the spec: `findByEin(ein) -> NonprofitRecord or NotFound`
over the in-memory record store (not in the provided sources). -/
def findByEin (store : List NonprofitRecord) (ein : String) :
    Except RagError NonprofitRecord :=
  match store.find? (fun r => r.ein == ein) with
  | some r => .ok r
  | none => .error .NotFoundError

/-- The store invariant: `ein` is unique across the record store. -/
def einUnique (store : List NonprofitRecord) : Prop :=
  store.Pairwise (fun a b => a.ein ≠ b.ein)

/-- Modelled from the spec: case-insensitive substring filter on
`name`/`missionDescription`. -/
def matchesSearch (q : String) (r : NonprofitRecord) : Bool :=
  hasSub (lower q) (lower r.name) || hasSub (lower q) (lower (r.missionDescription.getD ""))

/-- Modelled from the spec: exact match on the `nteeCode` up to the length
of the requested code. -/
def matchesNtee (code : String) (r : NonprofitRecord) : Bool :=
  beginsWith code.data r.nteeCode.data

/-- Modelled from the spec: the listing filter of the record store. -/
def applyFilter (search ntee : Option String) (store : List NonprofitRecord) :
    List NonprofitRecord :=
  store.filter fun r =>
    (match search with
     | some q => matchesSearch q r
     | none => true) &&
    (match ntee with
     | some c => matchesNtee c r
     | none => true)

/-- Comparison ordering records by `ein` ascending. -/
def einLe (a b : NonprofitRecord) : Bool := lexLe a.ein.data b.ein.data

/-- Modelled from the spec: the filtered record set in its stable total
order (`ein` ascending). -/
def filteredSorted (store : List NonprofitRecord) (search ntee : Option String) :
    List NonprofitRecord :=
  sortByLe einLe (applyFilter search ntee store)

/-- Modelled from the spec: `listPage(offset, limit, filter)`; fails with
`InvalidArgumentError` on `offset < 0` or `limit <= 0` and otherwise
returns the requested page together with the total filtered count. -/
def listPage (store : List NonprofitRecord) (search ntee : Option String)
    (offset limit : ℤ) : Except RagError (List NonprofitRecord × ℕ) :=
  if offset < 0 ∨ limit ≤ 0 then .error .InvalidArgumentError
  else
    let fl := filteredSorted store search ntee
    .ok ((fl.drop offset.toNat).take limit.toNat, fl.length)

/-- Modelled from the spec: the size-superlative cue list of the intent
classifier. -/
def sizeCues : List (List Char) :=
  ["largest".data, "biggest".data, "top".data, "most impact".data]

/-- Modelled from the spec: a query is an impact/size query when its text
contains one of the size-superlative cues. -/
def isImpactQuery (q : String) : Bool :=
  sizeCues.any fun cue => hasSub cue (lower q)

/-- Impact-mode comparison: `totalRevenue` descending, ties broken by
`name` ascending. -/
def impactLE (a b : NonprofitRecord) : Bool :=
  decide (b.totalRevenue < a.totalRevenue) ||
    (decide (a.totalRevenue = b.totalRevenue) && lexLe a.name.data b.name.data)

/-- Modelled from the spec: impact/size mode ranks the whole store by
revenue descending with deterministic name tie-break. -/
def impactSort (store : List NonprofitRecord) : List NonprofitRecord :=
  sortByLe impactLE store

/-- Modelled from the spec: the searchable text of a record is the concatenation
of name, NTEE description and the three free-text descriptions. -/
def searchText (r : NonprofitRecord) : String :=
  r.name ++ " " ++ r.nteeDescription ++ " " ++ r.missionDescription.getD "" ++ " " ++
    r.programDescription.getD "" ++ " " ++ r.activitiesDescription.getD ""

/-- Token list of the searchable text of a record. -/
def docTokens (r : NonprofitRecord) : List (List Char) := tokenize (searchText r)

/-- TF-IDF weight of token `t` for a token list: term frequency times the
inverse-document-frequency weight `idf t`. -/
def weightOf (idf : List Char → ℚ) (toks : List (List Char)) (t : List Char) : ℚ :=
  (toks.count t : ℚ) * idf t

/-- Dot product of the TF-IDF vectors of two token lists; tokens outside
the first list have weight zero there, so summing over its distinct tokens
is the full dot product. -/
def dotP (idf : List Char → ℚ) (t1 t2 : List (List Char)) : ℚ :=
  (t1.dedup.map fun t => weightOf idf t1 t * weightOf idf t2 t).sum

/-- Squared cosine similarity of two TF-IDF vectors, an exactly computable
rational that is order-isomorphic to the cosine on nonnegative values and
is zero exactly when the cosine is zero. -/
def cosSq (idf : List Char → ℚ) (t1 t2 : List (List Char)) : ℚ :=
  (dotP idf t1 t2) ^ 2 / (dotP idf t1 t1 * dotP idf t2 t2)

/-- Modelled from the spec: the semantic relevance score of a record for a
query (represented by the squared cosine similarity). -/
def scoreOf (idf : List Char → ℚ) (q : String) (r : NonprofitRecord) : ℚ :=
  cosSq idf (tokenize q) (docTokens r)

/-- Semantic-mode comparison on scored records: score descending, ties
broken by `name` ascending. -/
def semLE (a b : NonprofitRecord × ℚ) : Bool :=
  decide (b.2 < a.2) || (decide (a.2 = b.2) && lexLe a.1.name.data b.1.name.data)

/-- Modelled from the spec: semantic mode scores every record, drops the
records with zero similarity and sorts the rest by score descending with
name tie-break. -/
def semanticRank (idf : List Char → ℚ) (q : String) (store : List NonprofitRecord) :
    List (NonprofitRecord × ℚ) :=
  sortByLe semLE (((store.map fun r => (r, scoreOf idf q r)).filter fun p => decide (p.2 ≠ 0)))

/-- Modelled from the spec: the query ranker selects impact mode or
semantic mode by intent classification. -/
def rankQuery (idf : List Char → ℚ) (q : String) (store : List NonprofitRecord) :
    List NonprofitRecord :=
  if isImpactQuery q then impactSort store else (semanticRank idf q store).map Prod.fst

/-- Outcome of the single call to the external generation service. -/
inductive GenOutcome where
  | ok (text : String)
  | timeout
  | badStatus (code : ℕ)
  | malformed
deriving DecidableEq, Repr

/-- Whether a generation outcome is a failure (timeout, non-success status
or malformed response). -/
def genFailed : GenOutcome → Bool
  | .ok _ => false
  | .timeout => true
  | .badStatus _ => true
  | .malformed => true

/-- The response value of the orchestrator: answer text plus cited sources. -/
structure ChatResponse where
  answerText : String
  sources : List NonprofitRecord
deriving DecidableEq, Repr

/-- Modelled from the spec: the fixed, user-safe fallback answer text
returned on any generation failure (the spec fixes its existence, not its
wording). -/
def fallbackText : String :=
  "I apologize, but I am having trouble generating a response right now. Please try again later."

/-- Blank check: empty or whitespace-only text. -/
def isBlank (s : String) : Bool := s.data.all Char.isWhitespace

/-- Modelled from the spec: one chat-orchestrator turn.  The second
component counts the calls made to the external generation service, so
`0` means the generator was never contacted and `1` means exactly one call
and no retry. -/
def chatOrchestrate (idf : List Char → ℚ) (k : ℕ) (store : List NonprofitRecord)
    (question : String) (gen : GenOutcome) : Except RagError ChatResponse × ℕ :=
  if isBlank question then (.error .ValidationError, 0)
  else
    let ranked := (rankQuery idf question store).take k
    match gen with
    | .ok text => (.ok ⟨text, ranked⟩, 1)
    | .timeout => (.ok ⟨fallbackText, []⟩, 1)
    | .badStatus _ => (.ok ⟨fallbackText, []⟩, 1)
    | .malformed => (.ok ⟨fallbackText, []⟩, 1)

/-- Default top-k of the ranker (spec: default 3 to 5). -/
def defaultTopK : ℕ := 5

/-- The `Source` shape of the chat page (interface `Source`). -/
structure Source where
  name : String
  ein : String
  category : String
  website : String
  relevance_score : ℚ
  revenue : ℤ
deriving DecidableEq, Repr

/-- The `Message` shape of the chat page; timestamps are abstract ticks. -/
structure Message where
  id : String
  text : String
  isUser : Bool
  timestamp : ℕ
  sources : Option (List Source)
deriving DecidableEq, Repr

/-- The chat page state touched by `sendMessage`. -/
structure ChatState where
  messages : List Message
  inputValue : String
  isLoading : Bool
deriving DecidableEq, Repr

/-- Outcome of the `fetch` to `POST /api/chat` as observed by the page:
either a parsed body (`data.response`, optional `data.sources`) or a
thrown error caught by the `catch` branch. -/
inductive FetchOutcome where
  | success (response : String) (sources : Option (List Source))
  | failure
deriving DecidableEq, Repr

/-- The fixed error bubble text of the `catch` branch of the chat page. -/
def chatErrorText : String :=
  "Sorry, I encountered an error while processing your request. Please try again."

/-- The `sendMessage` handler of the chat page: guard on blank input or an
in-flight request, append the user message, run the fetch, then append
either the assistant message (with `data.sources || []`) or the fixed
error message.  The boolean records whether a network call was started. -/
def sendMessage (s : ChatState) (o : FetchOutcome) (now : ℕ) : ChatState × Bool :=
  if isBlank s.inputValue || s.isLoading then (s, false)
  else
    let userMessage : Message :=
      { id := toString now, text := s.inputValue, isUser := true, timestamp := now,
        sources := none }
    match o with
    | .success resp srcs =>
      let assistantMessage : Message :=
        { id := toString (now + 1), text := resp, isUser := false, timestamp := now,
          sources := some (srcs.getD []) }
      ({ messages := s.messages ++ [userMessage, assistantMessage], inputValue := "",
         isLoading := false }, true)
    | .failure =>
      let errorMessage : Message :=
        { id := toString (now + 1), text := chatErrorText, isUser := false, timestamp := now,
          sources := none }
      ({ messages := s.messages ++ [userMessage, errorMessage], inputValue := "",
         isLoading := false }, true)

/-- The disabled condition of the send icon button. -/
def sendDisabled (s : ChatState) : Bool := isBlank s.inputValue || s.isLoading

/-- The sources actually rendered for a message bubble: the block is shown
only for a nonempty sources list and renders `sources.slice(0, 3)`. -/
def displayedSources (m : Message) : List Source :=
  match m.sources with
  | some l => if 0 < l.length then l.take 3 else []
  | none => []

/-- The nonprofit list page requests `limit = 20`. -/
def clientLimit : ℕ := 20

/-- The nonprofit list page requests `offset = (page - 1) * 20`. -/
def clientOffset (page : ℕ) : ℕ := (page - 1) * 20

/-- The nonprofit list page shows `Math.ceil(total / 20)` pages. -/
def clientTotalPages (total : ℕ) : ℕ := (total + 19) / 20

/-- One entry of `data.top_categories` consumed by the dashboard. -/
structure TopCategory where
  description : String
  count : ℕ
deriving DecidableEq, Repr

/-- The `/api/stats/dashboard` payload fields the dashboard reads. -/
structure DashboardData where
  total_nonprofits : ℕ
  total_revenue : ℕ
  top_categories : List TopCategory
deriving DecidableEq, Repr

/-- One slice of the revenue-by-category pie chart. -/
structure RevCat where
  category : String
  revenue : ℤ
deriving DecidableEq, Repr

/-- The chart label: the component at index 1 of the description split on
the three-character dash separator when present and nonempty, else the
full description (a falsy fallback in the source). -/
def catName (c : TopCategory) : String :=
  match (c.description.splitOn " - ").get? 1 with
  | some s => if s = "" then c.description else s
  | none => c.description

/-- The transformed `topCategories` list of the dashboard. -/
def topCategoriesView (d : DashboardData) : List (String × ℕ) :=
  d.top_categories.map fun c => (catName c, c.count)

/-- The synthetic revenue figure of the dashboard:
`Math.floor(total_revenue / n * (1 + i * 0.2))` for position `i` among `n`
top categories. -/
def dashRevenue (total n i : ℕ) : ℤ :=
  ⌊(total : ℚ) / (n : ℚ) * (1 + (i : ℚ) * (1 / 5))⌋

/-- The `revenueByCategory` chart data computed by `fetchDashboardData`. -/
def revenueByCategory (d : DashboardData) : List RevCat :=
  (topCategoriesView d).enum.map fun p =>
    { category := p.2.1,
      revenue := dashRevenue d.total_revenue (topCategoriesView d).length p.1 }

/-- Constant IDF weighting, used to instantiate the ranker on concrete
inputs. -/
def oneIdf : List Char → ℚ := fun _ => 1

/-- Houston Food Bank as reported in the sample results of the README. -/
def hfb : NonprofitRecord :=
  { ein := "74-1669152", name := "Houston Food Bank", nteeCode := "P24",
    nteeDescription := "Human Services - Emergency Aid", city := "Houston", state := "TX",
    streetAddress := none, zipCode := none, totalRevenue := 425000000,
    totalExpenses := 410000000, netAssets := 150000000,
    missionDescription := some "Food for change providing food assistance across southeast Texas",
    programDescription := none, activitiesDescription := none,
    website := some "https://www.houstonfoodbank.org", phone := none }

/-- Houston Zoo as reported in the sample results of the README. -/
def zoo : NonprofitRecord :=
  { ein := "74-2590271", name := "Houston Zoo", nteeCode := "D50",
    nteeDescription := "Animal Protection", city := "Houston", state := "TX",
    streetAddress := none, zipCode := none, totalRevenue := 65000000,
    totalExpenses := 60000000, netAssets := 90000000,
    missionDescription := some "Connecting communities with animals inspiring action to save wildlife",
    programDescription := none, activitiesDescription := none,
    website := some "https://www.houstonzoo.org", phone := none }

/-- A record whose searchable text shares no vocabulary with the query
used in the semantic-mode instantiation. -/
def operaRec : NonprofitRecord :=
  { ein := "74-1111111", name := "Grand Opera", nteeCode := "A60",
    nteeDescription := "Performing Arts", city := "Houston", state := "TX",
    streetAddress := none, zipCode := none, totalRevenue := 30000000,
    totalExpenses := 28000000, netAssets := 40000000,
    missionDescription := some "Presenting opera performances",
    programDescription := none, activitiesDescription := none,
    website := none, phone := none }

/-- A dashboard payload used to instantiate the dashboard transform. -/
def dashA : DashboardData :=
  { total_nonprofits := 10, total_revenue := 1000,
    top_categories := [⟨"Health - Hospitals", 7⟩, ⟨"Education - Schools", 3⟩] }

/-- A second dashboard payload with the same total revenue and number of
top categories as `dashA` but entirely different categories and counts. -/
def dashB : DashboardData :=
  { total_nonprofits := 4, total_revenue := 1000,
    top_categories := [⟨"Arts", 1⟩, ⟨"Housing", 9⟩] }

theorem insertBy_perm (le : α → α → Bool) (a : α) (l : List α) :
    (insertBy le a l).Perm (a :: l) := by
  induction l with
  | nil => simp [insertBy]
  | cons b t ih =>
    simp only [insertBy]
    split
    · exact List.Perm.refl _
    · exact (ih.cons b).trans (List.Perm.swap a b t)

theorem sortByLe_perm (le : α → α → Bool) (l : List α) :
    (sortByLe le l).Perm l := by
  induction l with
  | nil => simp [sortByLe]
  | cons a t ih =>
    exact (insertBy_perm le a (sortByLe le t)).trans (ih.cons a)

theorem mem_insertBy (le : α → α → Bool) (a x : α) (l : List α) :
    x ∈ insertBy le a l ↔ x = a ∨ x ∈ l := by
  rw [(insertBy_perm le a l).mem_iff]
  simp

theorem insertBy_pairwise (le : α → α → Bool)
    (htot : ∀ a b, le a b = true ∨ le b a = true)
    (htrans : ∀ a b c, le a b = true → le b c = true → le a c = true)
    (a : α) (l : List α)
    (hl : l.Pairwise (fun x y => le x y = true)) :
    (insertBy le a l).Pairwise (fun x y => le x y = true) := by
  induction l with
  | nil => simp [insertBy]
  | cons b t ih =>
    rcases List.pairwise_cons.mp hl with ⟨hb, ht⟩
    simp only [insertBy]
    split
    case isTrue hab =>
      refine List.pairwise_cons.mpr ⟨?_, hl⟩
      intro x hx
      rcases List.mem_cons.mp hx with heq | hx
      · exact heq ▸ hab
      · exact htrans a b x hab (hb x hx)
    case isFalse hab =>
      refine List.pairwise_cons.mpr ⟨?_, ih ht⟩
      intro x hx
      rcases (mem_insertBy le a x t).mp hx with heq | hx
      · subst heq
        rcases htot x b with h | h
        · exact absurd h hab
        · exact h
      · exact hb x hx

theorem sortByLe_pairwise (le : α → α → Bool)
    (htot : ∀ a b, le a b = true ∨ le b a = true)
    (htrans : ∀ a b c, le a b = true → le b c = true → le a c = true)
    (l : List α) :
    (sortByLe le l).Pairwise (fun x y => le x y = true) := by
  induction l with
  | nil => simp [sortByLe]
  | cons a t ih => exact insertBy_pairwise le htot htrans a (sortByLe le t) ih

theorem lexLe_total : ∀ a b : List Char, lexLe a b = true ∨ lexLe b a = true := by
  intro a
  induction a with
  | nil => intro b; left; simp [lexLe]
  | cons x xs ih =>
    intro b
    cases b with
    | nil => right; simp [lexLe]
    | cons y ys =>
      by_cases hxy : x = y
      · subst hxy
        simp only [lexLe, if_pos rfl]
        exact ih ys
      · rcases lt_or_gt_of_ne hxy with h | h
        · left; simp [lexLe, hxy, h]
        · right
          simp [lexLe, Ne.symm hxy, h]

theorem lexLe_trans :
    ∀ a b c : List Char, lexLe a b = true → lexLe b c = true → lexLe a c = true := by
  intro a
  induction a with
  | nil => intro b c _ _; simp [lexLe]
  | cons x xs ih =>
    intro b c hab hbc
    cases b with
    | nil => simp [lexLe] at hab
    | cons y ys =>
      cases c with
      | nil => simp [lexLe] at hbc
      | cons z zs =>
        simp only [lexLe] at hab hbc ⊢
        by_cases hxy : x = y
        · subst hxy
          rw [if_pos rfl] at hab
          by_cases hyz : x = z
          · subst hyz
            rw [if_pos rfl] at hbc
            rw [if_pos rfl]
            exact ih ys zs hab hbc
          · rw [if_neg hyz] at hbc
            rw [if_neg hyz]
            exact hbc
        · rw [if_neg hxy] at hab
          by_cases hyz : y = z
          · subst hyz
            rw [if_neg hxy]
            exact hab
          · rw [if_neg hyz] at hbc
            have hxz : x < z := lt_trans (of_decide_eq_true hab) (of_decide_eq_true hbc)
            rw [if_neg (ne_of_lt hxz)]
            exact decide_eq_true hxz

theorem impactLE_total : ∀ a b : NonprofitRecord, impactLE a b = true ∨ impactLE b a = true := by
  intro a b
  rcases Nat.lt_trichotomy a.totalRevenue b.totalRevenue with h | h | h
  · right; simp [impactLE, h]
  · rcases lexLe_total a.name.data b.name.data with hn | hn
    · left; simp [impactLE, h, hn]
    · right; simp [impactLE, h.symm, hn]
  · left; simp [impactLE, h]

theorem impactLE_trans :
    ∀ a b c : NonprofitRecord, impactLE a b = true → impactLE b c = true →
      impactLE a c = true := by
  intro a b c hab hbc
  simp only [impactLE, Bool.or_eq_true, Bool.and_eq_true, decide_eq_true_eq] at hab hbc ⊢
  rcases hab with hab | ⟨hab, hab'⟩ <;> rcases hbc with hbc | ⟨hbc, hbc'⟩
  · exact Or.inl (lt_trans hbc hab)
  · exact Or.inl (hbc ▸ hab)
  · exact Or.inl (hab ▸ hbc)
  · exact Or.inr ⟨hab.trans hbc, lexLe_trans _ _ _ hab' hbc'⟩

theorem einLe_total : ∀ a b : NonprofitRecord, einLe a b = true ∨ einLe b a = true := by
  intro a b; exact lexLe_total a.ein.data b.ein.data

theorem einLe_trans :
    ∀ a b c : NonprofitRecord, einLe a b = true → einLe b c = true → einLe a c = true := by
  intro a b c; exact lexLe_trans a.ein.data b.ein.data c.ein.data

theorem semLE_total : ∀ a b : NonprofitRecord × ℚ, semLE a b = true ∨ semLE b a = true := by
  intro a b
  rcases lt_trichotomy a.2 b.2 with h | h | h
  · right; simp [semLE, h]
  · rcases lexLe_total a.1.name.data b.1.name.data with hn | hn
    · left; simp [semLE, h, hn]
    · right; simp [semLE, h.symm, hn]
  · left; simp [semLE, h]

theorem semLE_trans :
    ∀ a b c : NonprofitRecord × ℚ, semLE a b = true → semLE b c = true →
      semLE a c = true := by
  intro a b c hab hbc
  simp only [semLE, Bool.or_eq_true, Bool.and_eq_true, decide_eq_true_eq] at hab hbc ⊢
  rcases hab with hab | ⟨hab, hab'⟩ <;> rcases hbc with hbc | ⟨hbc, hbc'⟩
  · exact Or.inl (lt_trans hbc hab)
  · exact Or.inl (hbc ▸ hab)
  · exact Or.inl (hab ▸ hbc)
  · exact Or.inr ⟨hab.trans hbc, lexLe_trans _ _ _ hab' hbc'⟩

theorem impactLE_decode (a b : NonprofitRecord) (h : impactLE a b = true) :
    b.totalRevenue ≤ a.totalRevenue ∧
      (a.totalRevenue = b.totalRevenue → lexLe a.name.data b.name.data = true) := by
  simp only [impactLE, Bool.or_eq_true, Bool.and_eq_true, decide_eq_true_eq] at h
  rcases h with h | ⟨h, h'⟩
  · exact ⟨Nat.le_of_lt h, fun he => absurd h (by omega)⟩
  · exact ⟨Nat.le_of_eq h.symm, fun _ => h'⟩

/-- Claim C1: a query containing a size-superlative cue is ranked in impact
mode: the ranker returns all records sorted by `totalRevenue` descending
with ties broken by `name` ascending (a permutation of the store that is
pairwise ordered by that key). -/
theorem impact_query_ranks_by_revenue (idf : List Char → ℚ) (q : String)
    (store : List NonprofitRecord) (h : isImpactQuery q = true) :
    rankQuery idf q store = impactSort store ∧
    (impactSort store).Perm store ∧
    (impactSort store).Pairwise (fun a b =>
      b.totalRevenue ≤ a.totalRevenue ∧
        (a.totalRevenue = b.totalRevenue → lexLe a.name.data b.name.data = true)) := by
  refine ⟨by simp [rankQuery, h], sortByLe_perm _ _, ?_⟩
  exact (sortByLe_pairwise impactLE impactLE_total impactLE_trans store).imp
    (fun hab => impactLE_decode _ _ hab)

/-- Witness for C1 at the scenario given in the spec: the query contains the
cue "largest", the ranker takes impact mode on a store holding Houston
Food Bank (revenue 425000000) and Houston Zoo (revenue 65000000), and the
first ranked result is Houston Food Bank. -/
theorem impact_query_ranks_by_revenue_witness :
    isImpactQuery "What are Houston\x27s largest nonprofits by impact?" = true ∧
    rankQuery oneIdf "What are Houston\x27s largest nonprofits by impact?" [zoo, hfb] =
      impactSort [zoo, hfb] ∧
    (rankQuery oneIdf "What are Houston\x27s largest nonprofits by impact?"
      [zoo, hfb]).head? = some hfb := by
  refine ⟨by decide, ?_, ?_⟩
  · exact (impact_query_ranks_by_revenue oneIdf
      "What are Houston\x27s largest nonprofits by impact?" [zoo, hfb] (by decide)).1
  · decide

theorem findByEin_mem :
    ∀ (store : List NonprofitRecord), einUnique store →
      ∀ r ∈ store, findByEin store r.ein = .ok r := by
  intro store
  induction store with
  | nil => intro _ r hr; cases hr
  | cons a t ih =>
    intro h r hr
    rcases List.pairwise_cons.mp h with ⟨ha, ht⟩
    rcases List.mem_cons.mp hr with heq | hr'
    · subst heq
      simp [findByEin, List.find?]
    · have hne : (a.ein == r.ein) = false := beq_eq_false_iff_ne.mpr (ha r hr')
      have hstep : findByEin (a :: t) r.ein = findByEin t r.ein := by
        simp [findByEin, List.find?, hne]
      rw [hstep]
      exact ih ht r hr'

theorem findByEin_none (store : List NonprofitRecord) (e : String)
    (h : ∀ r ∈ store, r.ein ≠ e) :
    findByEin store e = .error .NotFoundError := by
  have hnone : store.find? (fun r => r.ein == e) = none :=
    List.find?_eq_none.mpr fun x hx => by simpa using h x hx
  simp [findByEin, hnone]

/-- Claim C5: on a store with unique EINs, `findByEin` is a right inverse
of record identity (looking up the EIN of a loaded record returns exactly that
record), and an EIN carried by no record fails with `NotFoundError`. -/
theorem findByEin_inverse (store : List NonprofitRecord) (h : einUnique store) :
    (∀ r ∈ store, findByEin store r.ein = .ok r) ∧
    (∀ e : String, (∀ r ∈ store, r.ein ≠ e) → findByEin store e = .error .NotFoundError) := by
  exact ⟨findByEin_mem store h, fun e he => findByEin_none store e he⟩

/-- Witness for C5 on a concrete two-record store: each record is found by
its own EIN and an absent EIN yields `NotFoundError`. -/
theorem findByEin_inverse_witness :
    einUnique [hfb, zoo] ∧
    findByEin [hfb, zoo] hfb.ein = .ok hfb ∧
    findByEin [hfb, zoo] "00-0000000" = .error .NotFoundError := by
  have h : einUnique [hfb, zoo] := by unfold einUnique; decide
  refine ⟨h, ?_, ?_⟩
  · exact (findByEin_inverse [hfb, zoo] h).1 hfb (by decide)
  · exact (findByEin_inverse [hfb, zoo] h).2 "00-0000000" (by decide)

theorem semLE_decode (a b : NonprofitRecord × ℚ) (h : semLE a b = true) :
    b.2 ≤ a.2 ∧ (a.2 = b.2 → lexLe a.1.name.data b.1.name.data = true) := by
  simp only [semLE, Bool.or_eq_true, Bool.and_eq_true, decide_eq_true_eq] at h
  rcases h with h | ⟨h, h'⟩
  · refine ⟨le_of_lt h, fun he => absurd h ?_⟩
    rw [he]
    exact lt_irrefl _
  · exact ⟨le_of_eq h.symm, fun _ => h'⟩

theorem mem_semanticRank (idf : List Char → ℚ) (q : String) (store : List NonprofitRecord)
    (p : NonprofitRecord × ℚ) :
    p ∈ semanticRank idf q store ↔ p.1 ∈ store ∧ p.2 = scoreOf idf q p.1 ∧ p.2 ≠ 0 := by
  unfold semanticRank
  rw [(sortByLe_perm semLE _).mem_iff, List.mem_filter, List.mem_map]
  simp only [decide_eq_true_eq]
  constructor
  · rintro ⟨⟨r, hr, rfl⟩, hne⟩
    exact ⟨hr, rfl, hne⟩
  · rintro ⟨h1, h2, h3⟩
    refine ⟨⟨p.1, h1, ?_⟩, h3⟩
    rw [← h2]

theorem dotP_eq_zero (idf : List Char → ℚ) (t1 t2 : List (List Char))
    (h : t1.inter t2 = []) : dotP idf t1 t2 = 0 := by
  unfold dotP
  apply List.sum_eq_zero
  intro x hx
  rcases List.mem_map.mp hx with ⟨t, ht, rfl⟩
  have ht1 : t ∈ t1 := List.mem_dedup.mp ht
  have ht2 : t ∉ t2 := by
    intro hmem
    have hin : t ∈ t1.inter t2 := List.mem_inter_iff.mpr ⟨ht1, hmem⟩
    rw [h] at hin
    cases hin
  have hc : t2.count t = 0 := List.count_eq_zero.mpr ht2
  simp [weightOf, hc]

theorem dotP_self_nonneg (idf : List Char → ℚ) (t : List (List Char)) :
    0 ≤ dotP idf t t := by
  unfold dotP
  apply List.sum_nonneg
  intro x hx
  rcases List.mem_map.mp hx with ⟨u, _, rfl⟩
  exact mul_self_nonneg _

theorem cosSq_nonneg (idf : List Char → ℚ) (t1 t2 : List (List Char)) :
    0 ≤ cosSq idf t1 t2 :=
  div_nonneg (sq_nonneg _) (mul_nonneg (dotP_self_nonneg idf t1) (dotP_self_nonneg idf t2))

/-- Claim C3: in semantic mode the returned sequence is sorted by score
descending (the score is the squared cosine similarity, order-isomorphic
to the cosine on its nonnegative values) with ties broken by `name`
ascending, every returned score is nonzero and nonnegative, and a record
whose searchable text shares no vocabulary with the query never appears in
the results. -/
theorem semantic_ranking_sound (idf : List Char → ℚ) (q : String)
    (store : List NonprofitRecord) :
    (semanticRank idf q store).Pairwise (fun a b =>
      b.2 ≤ a.2 ∧ (a.2 = b.2 → lexLe a.1.name.data b.1.name.data = true)) ∧
    (∀ p ∈ semanticRank idf q store,
      0 ≤ p.2 ∧ p.2 = scoreOf idf q p.1 ∧ p.2 ≠ 0 ∧ p.1 ∈ store) ∧
    (∀ r : NonprofitRecord, (tokenize q).inter (docTokens r) = [] →
      ∀ s : ℚ, (r, s) ∉ semanticRank idf q store) := by
  refine ⟨?_, ?_, ?_⟩
  · exact (sortByLe_pairwise semLE semLE_total semLE_trans _).imp
      (fun h => semLE_decode _ _ h)
  · intro p hp
    rcases (mem_semanticRank idf q store p).mp hp with ⟨h1, h2, h3⟩
    refine ⟨?_, h2, h3, h1⟩
    rw [h2]
    exact cosSq_nonneg idf _ _
  · intro r hzero s hmem
    rcases (mem_semanticRank idf q store (r, s)).mp hmem with ⟨_, h2, h3⟩
    have hzero' : scoreOf idf q r = 0 := by
      unfold scoreOf cosSq
      rw [dotP_eq_zero idf _ _ hzero]
      simp
    exact h3 (h2.trans hzero')

/-- Witness for C3: for the query "food bank" the record `operaRec` shares
no vocabulary with the query and therefore never appears in the semantic
results over a concrete store. -/
theorem semantic_ranking_sound_witness :
    (tokenize "food bank").inter (docTokens operaRec) = [] ∧
    ∀ s : ℚ, (operaRec, s) ∉ semanticRank oneIdf "food bank" [hfb, operaRec] := by
  refine ⟨by decide, ?_⟩
  exact (semantic_ranking_sound oneIdf "food bank" [hfb, operaRec]).2.2 operaRec (by decide)

/-- Claim C2: when the question is non-blank and the external generation
call fails in any way, the chat turn still completes with an `ok` response
carrying the fixed fallback text and an empty sources list, after exactly
one generation call (no retry) and without surfacing the transport error. -/
theorem generation_failure_fallback (idf : List Char → ℚ) (k : ℕ)
    (store : List NonprofitRecord) (q : String) (gen : GenOutcome)
    (hq : isBlank q = false) (hg : genFailed gen = true) :
    chatOrchestrate idf k store q gen = (.ok ⟨fallbackText, []⟩, 1) := by
  cases gen with
  | ok t => simp [genFailed] at hg
  | timeout => simp [chatOrchestrate, hq]
  | badStatus c => simp [chatOrchestrate, hq]
  | malformed => simp [chatOrchestrate, hq]

/-- Witness for C2: a simulated upstream timeout on a concrete question
still yields the fallback response with empty sources. -/
theorem generation_failure_fallback_witness :
    isBlank "Tell me about food banks" = false ∧ genFailed .timeout = true ∧
    chatOrchestrate oneIdf defaultTopK [hfb, zoo] "Tell me about food banks" .timeout =
      (.ok ⟨fallbackText, []⟩, 1) := by
  refine ⟨by decide, by decide, ?_⟩
  exact generation_failure_fallback oneIdf defaultTopK [hfb, zoo]
    "Tell me about food banks" .timeout (by decide) (by decide)

/-- Claim C4: a blank (empty or whitespace-only) question fails with
`ValidationError` and the external generator is called zero times; the
guard of the chat page likewise turns a blank send into a no-op that starts
no network call. -/
theorem blank_question_validation (idf : List Char → ℚ) (k : ℕ)
    (store : List NonprofitRecord) (q : String) (gen : GenOutcome)
    (hq : isBlank q = true) :
    chatOrchestrate idf k store q gen = (.error .ValidationError, 0) ∧
    (∀ (s : ChatState) (o : FetchOutcome) (now : ℕ),
      isBlank s.inputValue = true → sendMessage s o now = (s, false)) := by
  constructor
  · simp [chatOrchestrate, hq]
  · intro s o now hb
    simp [sendMessage, hb]

/-- Witness for C4: the empty question yields `ValidationError` with zero
generator calls, and a whitespace-only input makes the send handler a
no-op. -/
theorem blank_question_validation_witness :
    isBlank "" = true ∧
    chatOrchestrate oneIdf defaultTopK [hfb, zoo] "" .timeout =
      (.error .ValidationError, 0) ∧
    sendMessage ⟨[], "   ", false⟩ .failure 5 = (⟨[], "   ", false⟩, false) := by
  have h := blank_question_validation oneIdf defaultTopK [hfb, zoo] "" .timeout (by decide)
  exact ⟨by decide, h.1, h.2 ⟨[], "   ", false⟩ .failure 5 (by decide)⟩

/-- Claim C7: a successful chat turn attaches as sources exactly the first
`k` ranked records (hence at most `k`, in rank order), and the client
renders at most the first three sources of a message, in order. -/
theorem chat_sources_bounded (idf : List Char → ℚ) (k : ℕ) (store : List NonprofitRecord)
    (q text : String) (hq : isBlank q = false) :
    (chatOrchestrate idf k store q (.ok text)).1 =
      .ok ⟨text, (rankQuery idf q store).take k⟩ ∧
    ((rankQuery idf q store).take k).length ≤ k ∧
    (∀ m : Message, (displayedSources m).length ≤ 3 ∧
      ∃ rest, m.sources.getD [] = displayedSources m ++ rest) := by
  refine ⟨by simp [chatOrchestrate, hq], List.length_take_le k _, ?_⟩
  intro m
  cases hm : m.sources with
  | none => simp [displayedSources, hm]
  | some l =>
    simp only [displayedSources, hm, Option.getD_some]
    by_cases hl : 0 < l.length
    · rw [if_pos hl]
      exact ⟨List.length_take_le 3 l, l.drop 3, (List.take_append_drop 3 l).symm⟩
    · rw [if_neg hl]
      have hnil : l = [] := List.length_eq_zero.mp (by omega)
      subst hnil
      simp

/-- Witness for C7 on a concrete non-blank question and store. -/
theorem chat_sources_bounded_witness :
    isBlank "education nonprofits" = false ∧
    (chatOrchestrate oneIdf defaultTopK [hfb, zoo] "education nonprofits"
      (.ok "Here are results")).1 =
      .ok ⟨"Here are results",
        (rankQuery oneIdf "education nonprofits" [hfb, zoo]).take defaultTopK⟩ ∧
    ((rankQuery oneIdf "education nonprofits" [hfb, zoo]).take defaultTopK).length ≤
      defaultTopK := by
  have h := chat_sources_bounded oneIdf defaultTopK [hfb, zoo] "education nonprofits"
    "Here are results" (by decide)
  exact ⟨by decide, h.1, h.2.1⟩

/-- Claim C9: every completion of `sendMessage` preserves the existing
transcript as an unchanged initial segment, and when the send proceeds
(non-blank input, no request in flight) it appends exactly one user
message followed by one non-user (assistant or error) message. -/
theorem transcript_append_only (s : ChatState) (o : FetchOutcome) (now : ℕ) :
    ((sendMessage s o now).1.messages.take s.messages.length = s.messages) ∧
    (isBlank s.inputValue = false → s.isLoading = false →
      ∃ u a : Message, u.isUser = true ∧ a.isUser = false ∧ u.text = s.inputValue ∧
        (sendMessage s o now).1.messages = s.messages ++ [u, a]) := by
  constructor
  · by_cases hb : (isBlank s.inputValue || s.isLoading) = true
    · simp [sendMessage, hb, List.take_length]
    · cases o <;> simp [sendMessage, hb, List.take_left]
  · intro h1 h2
    cases o with
    | success resp srcs =>
      refine ⟨⟨toString now, s.inputValue, true, now, none⟩,
        ⟨toString (now + 1), resp, false, now, some (srcs.getD [])⟩, rfl, rfl, rfl, ?_⟩
      simp [sendMessage, h1, h2]
    | failure =>
      refine ⟨⟨toString now, s.inputValue, true, now, none⟩,
        ⟨toString (now + 1), chatErrorText, false, now, none⟩, rfl, rfl, rfl, ?_⟩
      simp [sendMessage, h1, h2]

/-- Witness for C9 on a concrete state with a pending transcript: the old
message is preserved and exactly two messages are appended. -/
theorem transcript_append_only_witness :
    isBlank "show food banks" = false ∧
    (∃ u a : Message, u.isUser = true ∧ a.isUser = false ∧ u.text = "show food banks" ∧
      (sendMessage ⟨[⟨"1", "welcome", false, 0, none⟩], "show food banks", false⟩
        .failure 7).1.messages = [⟨"1", "welcome", false, 0, none⟩] ++ [u, a]) := by
  refine ⟨by decide, ?_⟩
  exact (transcript_append_only ⟨[⟨"1", "welcome", false, 0, none⟩],
    "show food banks", false⟩ .failure 7).2 (by decide) rfl

/-- Claim C10: while a request is in flight (`isLoading` true) the send
operation is a no-op that starts no network call, and the send control is
disabled. -/
theorem single_inflight_request (s : ChatState) (o : FetchOutcome) (now : ℕ)
    (h : s.isLoading = true) :
    sendMessage s o now = (s, false) ∧ sendDisabled s = true := by
  constructor
  · simp [sendMessage, h]
  · simp [sendDisabled, h]

/-- Witness for C10 on a concrete loading state. -/
theorem single_inflight_request_witness :
    sendMessage ⟨[], "hello", true⟩ .failure 3 = (⟨[], "hello", true⟩, false) ∧
    sendDisabled ⟨[], "hello", true⟩ = true :=
  single_inflight_request ⟨[], "hello", true⟩ .failure 3 rfl

theorem chunks_flatten {α : Type} (L : ℕ) (hL : 0 < L) :
    ∀ (n : ℕ) (l : List α), l.length = n →
      ((List.range ((l.length + L - 1) / L)).map fun i => (l.drop (i * L)).take L).flatten
        = l := by
  intro n
  induction n using Nat.strong_induction_on with
  | _ n ih =>
    intro l hn
    cases l with
    | nil =>
      have h0 : (([] : List α).length + L - 1) / L = 0 := by
        simp only [List.length_nil]
        exact Nat.div_eq_of_lt (by omega)
      rw [h0]
      simp
    | cons x xs =>
      have hm1 : 1 ≤ (x :: xs).length := by simp
      have hsplit : ((x :: xs).length + L - 1) / L = ((x :: xs).length - 1) / L + 1 := by
        have h1 : (x :: xs).length + L - 1 = ((x :: xs).length - 1) + L := by omega
        rw [h1, Nat.add_div_right _ hL]
      rw [hsplit, List.range_succ_eq_map, List.map_cons, List.flatten_cons, List.map_map]
      have hzero : ((x :: xs).drop (0 * L)).take L = (x :: xs).take L := by simp
      have hfun : ((fun i => ((x :: xs).drop (i * L)).take L) ∘ Nat.succ)
          = fun i => (((x :: xs).drop L).drop (i * L)).take L := by
        funext i
        simp only [Function.comp_apply, List.drop_drop]
        have harith : Nat.succ i * L = L + i * L := by
          simp only [Nat.succ_eq_add_one]
          ring
        rw [harith]
      rw [hzero, hfun]
      have hlen' : ((x :: xs).drop L).length = (x :: xs).length - L := by simp
      have hlt : (x :: xs).length - L < n := by omega
      have hrec := ih ((x :: xs).length - L) hlt ((x :: xs).drop L) hlen'
      have hk : ((((x :: xs).drop L).length + L - 1) / L) = ((x :: xs).length - 1) / L := by
        rw [hlen']
        rcases le_or_lt L (x :: xs).length with h | h
        · congr 1
          omega
        · have h1 : (x :: xs).length - L = 0 := by omega
          rw [h1, Nat.div_eq_of_lt (by omega), Nat.div_eq_of_lt (by omega)]
      rw [hk] at hrec
      rw [hrec]
      exact List.take_append_drop L (x :: xs)

theorem listPage_ok (store : List NonprofitRecord) (search ntee : Option String)
    (i L : ℕ) (hL : 0 < L) :
    listPage store search ntee ((i * L : ℕ) : ℤ) ((L : ℕ) : ℤ) =
      .ok (((filteredSorted store search ntee).drop (i * L)).take L,
        (filteredSorted store search ntee).length) := by
  unfold listPage
  rw [if_neg]
  · rw [Int.toNat_natCast, Int.toNat_natCast]
  · push_neg
    exact ⟨Int.natCast_nonneg _, by exact_mod_cast hL⟩

/-- Claim C6: with a fixed filter and page size, every page request at
offset `i * L` succeeds and returns the corresponding slice of the
filtered set in its stable `ein`-ascending order, concatenating the pages
at offsets `0, L, 2L, ...` reconstructs the filtered set exactly (no
duplicate, no omission), and the client page `p`, requesting offset
`(p - 1) * 20` with limit 20, tiles the whole range the same way. -/
theorem pagination_tiles (store : List NonprofitRecord) (search ntee : Option String)
    (L : ℕ) (hL : 0 < L) :
    (∀ i : ℕ, listPage store search ntee ((i * L : ℕ) : ℤ) ((L : ℕ) : ℤ) =
      .ok (((filteredSorted store search ntee).drop (i * L)).take L,
        (filteredSorted store search ntee).length)) ∧
    ((List.range (((filteredSorted store search ntee).length + L - 1) / L)).map
      fun i => ((filteredSorted store search ntee).drop (i * L)).take L).flatten =
      filteredSorted store search ntee ∧
    (filteredSorted store search ntee).Pairwise (fun a b => einLe a b = true) ∧
    ((List.range (clientTotalPages (filteredSorted store search ntee).length)).map
      fun i => ((filteredSorted store search ntee).drop (clientOffset (i + 1))).take
        clientLimit).flatten = filteredSorted store search ntee := by
  refine ⟨fun i => listPage_ok store search ntee i L hL,
    chunks_flatten L hL _ _ rfl,
    sortByLe_pairwise einLe einLe_total einLe_trans _, ?_⟩
  have h20 : ∀ i : ℕ, clientOffset (i + 1) = i * clientLimit := by
    intro i
    simp [clientOffset, clientLimit]
  have htp : clientTotalPages (filteredSorted store search ntee).length
      = ((filteredSorted store search ntee).length + clientLimit - 1) / clientLimit := by
    simp [clientTotalPages, clientLimit]
  rw [htp]
  simp only [h20]
  exact chunks_flatten clientLimit (by norm_num [clientLimit]) _ _ rfl

/-- Witness for C6 on a concrete three-record store with page size 2. -/
theorem pagination_tiles_witness :
    (0 : ℕ) < 2 ∧
    ((List.range (((filteredSorted [hfb, zoo, operaRec] none none).length + 2 - 1) / 2)).map
      fun i => ((filteredSorted [hfb, zoo, operaRec] none none).drop (i * 2)).take 2).flatten =
      filteredSorted [hfb, zoo, operaRec] none none :=
  ⟨by decide, (pagination_tiles [hfb, zoo, operaRec] none none 2 (by decide)).2.1⟩

theorem enum_map_fst {β γ : Type} (l : List β) (f : ℕ → γ) :
    l.enum.map (fun p => f p.1) = (List.range l.length).map f := by
  apply List.ext_getElem
  · simp
  · intro i h1 h2
    simp

theorem dashRevenue_closed (total n i : ℕ) :
    dashRevenue total n i = ((total * (5 + i)) / (5 * n) : ℕ) := by
  unfold dashRevenue
  have key : (total : ℚ) / (n : ℚ) * (1 + (i : ℚ) * (1 / 5))
      = ((total * (5 + i) : ℕ) : ℚ) / ((5 * n : ℕ) : ℚ) := by
    push_cast
    ring
  rw [key, Rat.floor_natCast_div_natCast]
  exact_mod_cast rfl

/-- Claim C8: the revenue-by-category figures of the dashboard are synthetic:
the figure at 0-based position `i` among `n` top categories is exactly
`floor(total_revenue / n * (1 + 0.2 * i))` (equivalently the integer
division `total_revenue * (5 + i) / (5 * n)`), so the figures depend only
on the overall total revenue and the position — two payloads with the same
total revenue and the same number of top categories produce identical
figures whatever their per-category contents. -/
theorem dashboard_synthetic_revenue :
    (∀ d : DashboardData, (revenueByCategory d).map RevCat.revenue =
      (List.range d.top_categories.length).map
        (dashRevenue d.total_revenue d.top_categories.length)) ∧
    (∀ total n i : ℕ, dashRevenue total n i = ((total * (5 + i)) / (5 * n) : ℕ)) ∧
    (∀ d d' : DashboardData, d.total_revenue = d'.total_revenue →
      d.top_categories.length = d'.top_categories.length →
      (revenueByCategory d).map RevCat.revenue =
        (revenueByCategory d').map RevCat.revenue) := by
  have h1 : ∀ d : DashboardData, (revenueByCategory d).map RevCat.revenue =
      (List.range d.top_categories.length).map
        (dashRevenue d.total_revenue d.top_categories.length) := by
    intro d
    have hlen : (topCategoriesView d).length = d.top_categories.length := by
      simp [topCategoriesView]
    rw [← hlen]
    unfold revenueByCategory
    rw [List.map_map]
    exact enum_map_fst (topCategoriesView d)
      (dashRevenue d.total_revenue (topCategoriesView d).length)
  refine ⟨h1, fun total n i => dashRevenue_closed total n i, ?_⟩
  intro d d' ht hl
  rw [h1 d, h1 d', ht, hl]

/-- Witness for C8: two payloads sharing only total revenue and category
count produce the same revenue figures. -/
theorem dashboard_synthetic_revenue_witness :
    dashA.total_revenue = dashB.total_revenue ∧
    dashA.top_categories.length = dashB.top_categories.length ∧
    (revenueByCategory dashA).map RevCat.revenue =
      (revenueByCategory dashB).map RevCat.revenue :=
  ⟨rfl, rfl, dashboard_synthetic_revenue.2.2 dashA dashB rfl rfl⟩
